import Mathlib

/-!
Shallow embedding of the session-scoped image artifact management core of
`src/my_agent/agent.py` (upload history, current-image tracking, image
resolution and the Halloween transformation orchestrator), together with
proofs settling the specification claims about it.

Bytes are modelled as `List Nat`; the per-session conversational state
(`tool_context.state`) is the `AgentState` structure; the artifact service
(`save_artifact` / `load_artifact`) is modelled as an append-only journal of
(filename, blob) pairs, following §4.1 of the specification.
-/

set_option maxHeartbeats 1000000

namespace HalloweenAgent

/-- A binary blob with a mime type (models `google.genai.types.Blob`). -/
structure Blob where
  mimeType : String
  data : List Nat
  deriving DecidableEq

/-- A content part: optional text and optional inline data (models `types.Part`). -/
structure ContentPart where
  text : Option String := none
  inlineData : Option Blob := none
  deriving DecidableEq

/-- One entry of the uploaded-images history, as built by `save_uploaded_image`:
`{'index': ..., 'filename': ..., 'mime_type': ..., 'timestamp': ..., 'version': ...}`. -/
structure ImageRecord where
  index : Nat
  filename : String
  mimeType : String
  timestamp : String
  version : Nat
  deriving DecidableEq

/-- The artifact service contents: an append-only journal of (filename, blob) writes.
The version of an entry for a filename is its 1-based position among the writes to
that filename. -/
abbrev ArtifactJournal := List (String × Blob)

/-- Per-session state: the `uploaded_images_history` list, the
`current_image_index` state key (absent key modelled as `none`), and the
artifact service contents for the session. -/
structure AgentState where
  uploadedImages : List ImageRecord
  currentImageIndex : Option Nat
  store : ArtifactJournal
  deriving DecidableEq

/-- Modelled from the spec: the Artifact Store `put` operation (§4.1) is implemented
by the external ADK artifact service (`tool_context.save_artifact`), whose code is not
part of this repository. A `put` always appends a new version for the key and returns
the assigned version number: prior version count + 1 for that key, starting at 1. -/
def putArtifact (store : ArtifactJournal) (fn : String) (b : Blob) : ArtifactJournal × Nat :=
  (store ++ [(fn, b)], (store.filter (fun e => e.1 == fn)).length + 1)

/-- Modelled from the spec: the Artifact Store `get` with omitted version (§4.1),
implemented by the external ADK artifact service (`tool_context.load_artifact`):
returns the highest version currently stored for the filename, or `none`. -/
def loadArtifact (store : ArtifactJournal) (fn : String) : Option Blob :=
  ((store.filter (fun e => e.1 == fn)).getLast?).map (fun e => e.2)

/-- Character-wise lowercasing (kernel-reducible version of `str.lower()` /
`String.toLower`). -/
def strToLower (s : String) : String :=
  String.mk (s.data.map Char.toLower)

/-- Prefix test on strings (kernel-reducible version of `str.startswith` /
`String.startsWith`). -/
def strStartsWith (s pre : String) : Bool :=
  pre.data.isPrefixOf s.data

/-- Replacement of every occurrence of one character (kernel-reducible version of
`str.replace` for the single-character patterns used by the code). -/
def replaceChar (s : String) (a b : Char) : String :=
  String.mk (s.data.map (fun c => if c == a then b else c))

/-- Translation of `get_extension_from_mime`: maps a MIME type to a file
extension, defaulting to `.png` for unknown types. -/
def getExtensionFromMime (mimeType : String) : String :=
  let m := strToLower mimeType
  if m == "image/jpeg" then ".jpg"
  else if m == "image/jpg" then ".jpg"
  else if m == "image/png" then ".png"
  else if m == "image/gif" then ".gif"
  else if m == "image/webp" then ".webp"
  else if m == "image/bmp" then ".bmp"
  else if m == "image/tiff" then ".tiff"
  else if m == "image/svg+xml" then ".svg"
  else ".png"

/-- First part of a message that carries inline data with an image mime type,
mirroring the loop condition
`if part.inline_data and part.inline_data.mime_type.startswith('image/')`. -/
def firstImageBlob : List ContentPart → Option Blob
  | [] => none
  | p :: rest =>
    match p.inlineData with
    | some b => if strStartsWith b.mimeType "image/" then some b else firstImageBlob rest
    | none => firstImageBlob rest

/-- The image attached to the inbound request, if any: `user_content` may be absent
(`None`), have no parts, or have no image-typed part. -/
def requestImage (userContent : Option (List ContentPart)) : Option Blob :=
  match userContent with
  | none => none
  | some parts => firstImageBlob parts

/-- Translation of the index assignment in `save_uploaded_image`:
`next_index = 1 if not uploaded_images else max(img['index'] for img in uploaded_images) + 1`. -/
def nextIndex (images : List ImageRecord) : Nat :=
  if images.isEmpty then 1
  else (images.map (fun img => img.index)).foldl max 0 + 1

/-- The success message returned by `save_uploaded_image`. -/
def saveSuccessMsg (nidx : Nat) (fn : String) (total : Nat) : String :=
  "✅ Perfect! I\x27ve saved your photo as image #" ++ toString nidx ++ " (" ++ fn ++
    "). You now have " ++ toString total ++
    " image(s) in your collection. I can transform any of them - just specify which one, or I\x27ll use the latest!"

/-- Translation of `save_uploaded_image`: records the first image-typed attachment of
the request in the history, persists it as an artifact, and updates the current index.
Returns the user-facing message and the new state. -/
def saveUploadedImage (st : AgentState) (userContent : Option (List ContentPart))
    (now : String) : String × AgentState :=
  match userContent with
  | none => ("❌ No image found. Please upload a photo first!", st)
  | some parts =>
    if parts.isEmpty then ("❌ No image found. Please upload a photo first!", st)
    else
      match firstImageBlob parts with
      | some b =>
        let nidx := nextIndex st.uploadedImages
        let ext := getExtensionFromMime b.mimeType
        let fn := "source_image_" ++ toString nidx ++ ext
        let put := putArtifact st.store fn { mimeType := b.mimeType, data := b.data }
        let entry : ImageRecord :=
          { index := nidx, filename := fn, mimeType := b.mimeType,
            timestamp := now, version := put.2 }
        let images2 := st.uploadedImages ++ [entry]
        ( saveSuccessMsg nidx fn images2.length,
          { uploadedImages := images2, currentImageIndex := some nidx, store := put.1 } )
      | none => ("❌ No image found in your message. Please attach a photo!", st)

/-- Rendering of an optional index the way a Python f-string renders it
(`None` for an absent value). -/
def optIndexStr : Option Nat → String
  | some n => toString n
  | none => "None"

/-- Translation of `clear_image_history`: empties the history and deletes the
current-index state key when there is something to clear; otherwise leaves the
state untouched. -/
def clearImageHistory (st : AgentState) : String × AgentState :=
  let count := st.uploadedImages.length
  if count > 0 then
    ("✅ Cleared " ++ toString count ++ " image(s) from history. Ready for fresh uploads!",
      { st with uploadedImages := [], currentImageIndex := none })
  else
    ("✅ No images to clear. Ready for you to upload photos!", st)

/-- Translation of `list_uploaded_images`: a read-only formatted listing of the
history. -/
def listUploadedImages (st : AgentState) : String × AgentState :=
  if st.uploadedImages.isEmpty then
    ("❌ No images uploaded yet. Upload a photo to get started!", st)
  else
    let header := "📸 You have " ++ toString st.uploadedImages.length ++
      " image(s) in your collection:\n"
    let lines := st.uploadedImages.foldl (fun acc img =>
      let marker := if st.currentImageIndex == some img.index then " ⭐ (latest)" else ""
      acc ++ ["#" ++ toString img.index ++ ": " ++ img.filename ++ marker,
        "   Uploaded: " ++ img.timestamp]) []
    let tip1 := "\n💡 To transform a specific image, just say \x27transform image #2 into a vampire\x27 or similar!"
    let tip2 := "💡 If you don\x27t specify, I\x27ll use the latest image (#" ++
      optIndexStr st.currentImageIndex ++ ")."
    (String.intercalate "\n" (header :: (lines ++ [tip1, tip2])), st)

/-- Translation of `check_for_source_image`: reports whether saved images or a fresh
attachment are available; read-only. -/
def checkForSourceImage (st : AgentState) (userContent : Option (List ContentPart)) :
    String × AgentState :=
  if st.uploadedImages.isEmpty then
    match requestImage userContent with
    | some _ =>
      ("✅ New image detected! I\x27ll save it to your collection so we can use it for transformations.", st)
    | none =>
      ("❌ No images available. Please upload a photo to get started with Halloween transformations!", st)
  else
    ("✅ You have " ++ toString st.uploadedImages.length ++ " image(s) saved! Latest is image #" ++
      optIndexStr st.currentImageIndex ++ ". Ready for transformations!", st)

/-- Outcome of the image-resolution phase of `transform_to_halloween_character`
(lines 285-339): either bytes were found, or one of the early-return conditions. -/
inductive ResolveResult where
  | resolved (b : Blob)
  | notFound (targetStr : String) (available : List Nat)
  | loadFailed (targetStr : String)
  | noImage
  deriving DecidableEq

/-- Translation of the image-resolution phase of `transform_to_halloween_character`:
`target_index` is the explicit `image_number` if given, else `current_image_index`;
when the history is empty the first image-typed request attachment is used (for any
target index); otherwise the target index is looked up in the history and the stored
artifact is loaded. -/
def resolveImage (st : AgentState) (userContent : Option (List ContentPart))
    (imageNumber : Option Nat) : ResolveResult :=
  let targetIndex : Option Nat :=
    match imageNumber with
    | some n => some n
    | none => st.currentImageIndex
  if st.uploadedImages.isEmpty then
    match requestImage userContent with
    | some b => ResolveResult.resolved b
    | none => ResolveResult.noImage
  else
    match st.uploadedImages.find? (fun img => some img.index == targetIndex) with
    | some img =>
      match loadArtifact st.store img.filename with
      | some b => ResolveResult.resolved b
      | none => ResolveResult.loadFailed (optIndexStr targetIndex)
    | none =>
      ResolveResult.notFound (optIndexStr targetIndex)
        (st.uploadedImages.map (fun img => img.index))

/-- The user-facing message for a failed explicit-index lookup:
`❌ Image #N not found. Available images: #1, #2, ...`. -/
def notFoundMsg (targetStr : String) (available : List Nat) : String :=
  "❌ Image #" ++ targetStr ++ " not found. Available images: " ++
    String.intercalate ", " (available.map (fun i => "#" ++ toString i))

/-- Result of the single call to the external generation collaborator: a successful
response is its list of content parts; a raised error carries the exception text and
the formatted traceback (`traceback.format_exc()`). -/
inductive GenResult where
  | success (parts : List ContentPart)
  | failure (errMsg : String) (tb : String)
  deriving DecidableEq

/-- First response part carrying inline data, mirroring
`if part.inline_data is not None` in the response-saving loop. -/
def firstInlineBlob : List ContentPart → Option Blob
  | [] => none
  | p :: rest =>
    match p.inlineData with
    | some b => some b
    | none => firstInlineBlob rest

/-- Translation of `character_type.replace(" ", "_").replace("/", "_")`. -/
def safeCharacterName (characterType : String) : String :=
  replaceChar (replaceChar characterType ' ' '_') '/' '_'

/-- The success message of `transform_to_halloween_character`, including the
image reference (Python truthiness of `image_number`) and the collection-size
dependent suggestion. -/
def transformSuccessMsg (imageNumber targetIndex : Option Nat) (characterType : String)
    (total : Nat) : String :=
  let imageRef :=
    match imageNumber with
    | some k => if k != 0 then "image #" ++ optIndexStr targetIndex else "your latest image"
    | none => "your latest image"
  let suggestion :=
    if total > 1 then
      "\n\n💡 You have " ++ toString total ++
        " images. Want to try transforming a different one? Just say \x27transform image #X into a [character]\x27!"
    else if total == 0 then "\n\n💡 Upload more photos to try different transformations!"
    else ""
  "🎃 Successfully transformed " ++ imageRef ++ " into a terrifying " ++ characterType ++
    "! Check out your spooky new look above!" ++ suggestion

/-- The fixed structural prompt template combined with the requested character and
description (the `transformation_prompt` f-string). -/
def transformationPrompt (characterType characterDescription : String) : String :=
  "Transform this person into a " ++ characterType ++ ". \n\nCharacter description: " ++
    characterDescription ++
    "\n\nStyle requirements:\n- Keep the person recognizable but fully transformed into the character\n- Make it spooky and Halloween-appropriate\n- Photorealistic style with dramatic lighting\n- Add appropriate atmospheric elements (fog, darkness, eerie background)\n- Ensure the transformation is complete and immersive\n\nMake this a truly terrifying Halloween transformation!"

/-- Translation of `transform_to_halloween_character`: resolves the source image,
invokes the generation collaborator once (its outcome `genResult` and the unique
filename suffix `uuidHex` are inputs of the model), persists the first returned
inline-data part as a new artifact on success, and reports the outcome. The session
history and current index are never written. -/
def transformToHalloweenCharacter (characterType characterDescription : String)
    (st : AgentState) (userContent : Option (List ContentPart)) (imageNumber : Option Nat)
    (genResult : GenResult) (uuidHex : String) : String × AgentState :=
  let targetIndex : Option Nat :=
    match imageNumber with
    | some n => some n
    | none => st.currentImageIndex
  let _prompt := transformationPrompt characterType characterDescription
  match resolveImage st userContent imageNumber with
  | ResolveResult.notFound ts avail => (notFoundMsg ts avail, st)
  | ResolveResult.loadFailed ts => ("❌ Could not load image #" ++ ts, st)
  | ResolveResult.noImage => ("❌ No image available. Please upload a photo first!", st)
  | ResolveResult.resolved _ =>
    match genResult with
    | GenResult.failure e tb =>
      ("Error during transformation: " ++ e ++ "\n\nDetails: " ++ tb, st)
    | GenResult.success parts =>
      match firstInlineBlob parts with
      | some g =>
        let fn := "halloween_" ++ safeCharacterName characterType ++ "_img" ++
          optIndexStr targetIndex ++ "_" ++ uuidHex ++ ".png"
        let put := putArtifact st.store fn { mimeType := "image/png", data := g.data }
        ( transformSuccessMsg imageNumber targetIndex characterType st.uploadedImages.length,
          { st with store := put.1 } )
      | none =>
        ("Image generation completed but no image was returned. This might be due to safety filters.",
          st)

/-- A sequence of `save_uploaded_image` calls in one session, each with its own
request content and timestamp, folded over the state. -/
def saveMany (st : AgentState) (reqs : List (Option (List ContentPart) × String)) :
    AgentState :=
  reqs.foldl (fun s r => (saveUploadedImage s r.1 r.2).2) st

/-- The ledger invariant of §3: `current_image_index`, when set, references an index
present in `uploaded_images_history`. -/
def ledgerInv (st : AgentState) : Bool :=
  match st.currentImageIndex with
  | none => true
  | some c => st.uploadedImages.any (fun img => img.index == c)

/-- Whether a resolution outcome is the explicit-index-miss (`NotFound`) outcome. -/
def isNotFoundResult : ResolveResult → Bool
  | ResolveResult.notFound _ _ => true
  | _ => false

/-- Number of artifacts the orchestrator writes: one exactly when resolution
succeeded and the collaborator response carried an inline-data part. -/
def genIncrement (r : ResolveResult) (g : GenResult) : Nat :=
  match r, g with
  | ResolveResult.resolved _, GenResult.success parts =>
    if (firstInlineBlob parts).isSome then 1 else 0
  | _, _ => 0

/-- Concrete fixture: a jpeg blob. -/
def jpegBlob : Blob :=
  { mimeType := "image/jpeg", data := [1, 2] }

/-- Concrete fixture: a png blob. -/
def pngBlob : Blob :=
  { mimeType := "image/png", data := [7] }

/-- Concrete fixture: a request carrying one jpeg attachment. -/
def jpegRequest : Option (List ContentPart) :=
  some [{ text := none, inlineData := some jpegBlob }]

/-- Concrete fixture: a request carrying one png attachment. -/
def pngRequest : Option (List ContentPart) :=
  some [{ text := none, inlineData := some pngBlob }]

/-- Concrete fixture: a request carrying only text. -/
def textRequest : Option (List ContentPart) :=
  some [{ text := some "hello", inlineData := none }]

/-- Concrete fixture: a fresh session state. -/
def emptyState : AgentState :=
  { uploadedImages := [], currentImageIndex := none, store := [] }

/-- Concrete fixture: the history record of a first jpeg upload. -/
def jpegRecord1 : ImageRecord :=
  { index := 1
    filename := "source_image_1.jpg"
    mimeType := "image/jpeg"
    timestamp := "t1"
    version := 1 }

/-- Concrete fixture: the session state after one jpeg upload. -/
def oneImageState : AgentState :=
  { uploadedImages := [jpegRecord1]
    currentImageIndex := some 1
    store := [("source_image_1.jpg", jpegBlob)] }

/-! ### Helper lemmas -/

theorem le_foldl_max (l : List Nat) (a : Nat) : a ≤ l.foldl max a := by
  induction l generalizing a with
  | nil => exact Nat.le_refl a
  | cons x t ih => exact Nat.le_trans (Nat.le_max_left a x) (ih (max a x))

theorem mem_le_foldl_max : ∀ (l : List Nat) (a x : Nat), x ∈ l → x ≤ l.foldl max a
  | y :: t, a, x, hx => by
    rcases List.mem_cons.mp hx with h | h
    · subst h
      exact Nat.le_trans (Nat.le_max_right a x) (le_foldl_max t (max a x))
    · exact mem_le_foldl_max t (max a y) x h

theorem range1_concat (k : Nat) : List.range' 1 (k + 1) = List.range' 1 k ++ [k + 1] := by
  have h := (List.range'_append_1 1 k 1).symm
  simpa [Nat.add_comm] using h

theorem foldl_max_range' : ∀ k : Nat, (List.range' 1 k).foldl max 0 = k
  | 0 => rfl
  | k + 1 => by
    rw [range1_concat k, List.foldl_append, foldl_max_range' k]
    simp [Nat.max_def]

theorem mem_index_lt_nextIndex {images : List ImageRecord} {r : ImageRecord}
    (hr : r ∈ images) : r.index < nextIndex images := by
  have hE : images.isEmpty = false := by
    cases images with
    | nil => cases hr
    | cons a t => rfl
  have hle : r.index ≤ (images.map (fun img => img.index)).foldl max 0 :=
    mem_le_foldl_max _ 0 _ (List.mem_map_of_mem _ hr)
  simp only [nextIndex, hE, Bool.false_eq_true, if_false]
  omega

theorem nextIndex_of_range {images : List ImageRecord} {k : Nat}
    (hk : images.map (fun img => img.index) = List.range' 1 k) :
    nextIndex images = k + 1 := by
  cases k with
  | zero =>
    have h0 : images = [] := by simpa using hk
    simp [h0, nextIndex]
  | succ k' =>
    have hne : images ≠ [] := by
      intro h
      rw [h] at hk
      simpa using congrArg List.length hk
    have hE : images.isEmpty = false := List.isEmpty_eq_false.mpr hne
    simp only [nextIndex, hE, Bool.false_eq_true, if_false]
    rw [hk, foldl_max_range']

theorem loadArtifact_append_self (store : ArtifactJournal) (fn : String) (b : Blob) :
    loadArtifact (store ++ [(fn, b)]) fn = some b := by
  unfold loadArtifact
  rw [List.filter_append]
  simp [List.getLast?_concat]

/-- Shape of a successful upload: the first image-typed attachment is appended as a
record carrying `nextIndex`, the current index is set to it, and the bytes are
written under the synthesized filename. -/
theorem save_success_shape (st : AgentState) (uc : Option (List ContentPart))
    (now : String) (b : Blob) (hb : requestImage uc = some b) :
    (saveUploadedImage st uc now).2.uploadedImages =
      st.uploadedImages ++
        [{ index := nextIndex st.uploadedImages,
           filename := "source_image_" ++ toString (nextIndex st.uploadedImages) ++
             getExtensionFromMime b.mimeType,
           mimeType := b.mimeType,
           timestamp := now,
           version := (putArtifact st.store ("source_image_" ++
             toString (nextIndex st.uploadedImages) ++ getExtensionFromMime b.mimeType)
             { mimeType := b.mimeType, data := b.data }).2 }] ∧
    (saveUploadedImage st uc now).2.currentImageIndex = some (nextIndex st.uploadedImages) ∧
    (saveUploadedImage st uc now).2.store =
      st.store ++ [("source_image_" ++ toString (nextIndex st.uploadedImages) ++
        getExtensionFromMime b.mimeType, { mimeType := b.mimeType, data := b.data })] := by
  cases uc with
  | none => simp [requestImage] at hb
  | some parts =>
    cases parts with
    | nil => simp [requestImage, firstImageBlob] at hb
    | cons p rest =>
      have hb' : firstImageBlob (p :: rest) = some b := by
        simpa [requestImage] using hb
      simp [saveUploadedImage, hb', putArtifact]

theorem listUploadedImages_state (st : AgentState) : (listUploadedImages st).2 = st := by
  unfold listUploadedImages
  split <;> rfl

theorem checkForSourceImage_state (st : AgentState) (uc : Option (List ContentPart)) :
    (checkForSourceImage st uc).2 = st := by
  unfold checkForSourceImage
  split
  · split <;> rfl
  · rfl

theorem ledgerInv_congr {s1 s2 : AgentState} (h1 : s2.uploadedImages = s1.uploadedImages)
    (h2 : s2.currentImageIndex = s1.currentImageIndex) : ledgerInv s2 = ledgerInv s1 := by
  unfold ledgerInv
  rw [h1, h2]

/-- The orchestrator never writes the session history or the current index, and only
ever appends to the artifact journal. -/
theorem transform_frame (ct cd : String) (st : AgentState) (uc : Option (List ContentPart))
    (n : Option Nat) (g : GenResult) (u : String) :
    (transformToHalloweenCharacter ct cd st uc n g u).2.uploadedImages = st.uploadedImages ∧
    (transformToHalloweenCharacter ct cd st uc n g u).2.currentImageIndex =
      st.currentImageIndex ∧
    (transformToHalloweenCharacter ct cd st uc n g u).2.store =
      st.store ++ ((transformToHalloweenCharacter ct cd st uc n g u).2.store.drop
        st.store.length) := by
  unfold transformToHalloweenCharacter
  cases hr : resolveImage st uc n with
  | resolved b =>
    cases g with
    | failure e tb => simp
    | success parts =>
      cases hp : firstInlineBlob parts with
      | some gb => simp [hp, putArtifact]
      | none => simp [hp]
  | notFound ts avail => simp
  | loadFailed ts => simp
  | noImage => simp

/-- With a non-empty history, resolution with an explicit index is exactly the
history lookup followed by the artifact load. -/
theorem resolveImage_eq_lookup (st : AgentState) (uc : Option (List ContentPart))
    (n : Nat) (hE : st.uploadedImages.isEmpty = false) :
    resolveImage st uc (some n) =
      (match st.uploadedImages.find? (fun img => some img.index == some n) with
       | some img =>
         (match loadArtifact st.store img.filename with
          | some b => ResolveResult.resolved b
          | none => ResolveResult.loadFailed (toString n))
       | none =>
         ResolveResult.notFound (toString n)
           (st.uploadedImages.map (fun img => img.index))) := by
  simp [resolveImage, hE, optIndexStr]

/-! ### Claim theorems -/

/-- C1 (amended). The resolver first branches on whether the session history is
empty. With an empty history, the first image-typed attachment of the request is
used when present — even when an explicit index was supplied — and otherwise the
result is NoImageAvailable. With a non-empty history, the target index (the explicit
index when supplied, else the current index) must resolve via the history: a record
with that index is loaded from the store, and absence of the index is a hard
NotFound error — never a fallback to an attachment or to the latest image; with no
explicit index the current index is used. -/
theorem C1_resolution_precedence (st : AgentState) (uc : Option (List ContentPart))
    (n : Nat) :
    (st.uploadedImages = [] →
      resolveImage st uc (some n) = resolveImage st uc none ∧
      resolveImage st uc none =
        (match requestImage uc with
         | some b => ResolveResult.resolved b
         | none => ResolveResult.noImage)) ∧
    (st.uploadedImages ≠ [] →
      (∀ r, st.uploadedImages.find? (fun img => some img.index == some n) = some r →
        resolveImage st uc (some n) =
          (match loadArtifact st.store r.filename with
           | some b => ResolveResult.resolved b
           | none => ResolveResult.loadFailed (toString n))) ∧
      (st.uploadedImages.find? (fun img => some img.index == some n) = none →
        resolveImage st uc (some n) =
          ResolveResult.notFound (toString n)
            (st.uploadedImages.map (fun img => img.index))) ∧
      (∀ c, st.currentImageIndex = some c →
        resolveImage st uc none = resolveImage st uc (some c))) := by
  constructor
  · intro h
    constructor
    · simp [resolveImage, h]
    · simp [resolveImage, h]
  · intro h
    have hE : st.uploadedImages.isEmpty = false := List.isEmpty_eq_false.mpr h
    refine ⟨?_, ?_, ?_⟩
    · intro r hr
      rw [resolveImage_eq_lookup st uc n hE, hr]
    · intro hr
      rw [resolveImage_eq_lookup st uc n hE, hr]
    · intro c hc
      simp [resolveImage, hE, hc]

/-- C1 counterexample. With an empty history, an attachment on the request, and an
explicit index 5 that was never assigned, the code resolves to the attachment bytes
instead of treating the dangling explicit index as a hard NotFound error: the
explicit index is silently replaced by the fresh attachment, refuting the claimed
precedence rule (1). -/
theorem C1_counterexample :
    emptyState.uploadedImages = [] ∧
    resolveImage emptyState pngRequest (some 5) = ResolveResult.resolved pngBlob ∧
    isNotFoundResult (resolveImage emptyState pngRequest (some 5)) = false := by
  decide

/-- C1 witness: with a non-empty history, explicit index 2 (never assigned) is a hard
NotFound error even though the request carries a fresh attachment. -/
theorem C1_witness :
    (oneImageState.uploadedImages ≠ [] ∧
      oneImageState.uploadedImages.find? (fun img => some img.index == some 2) = none) ∧
    resolveImage oneImageState pngRequest (some 2) = ResolveResult.notFound "2" [1] := by
  have h := ((C1_resolution_precedence oneImageState pngRequest 2).2 (by decide)).2.1 (by decide)
  refine ⟨⟨by decide, by decide⟩, ?_⟩
  rw [h]
  decide

/-- C2 (amended). For every session whose history is non-empty and every index never
assigned in that session, resolving that index explicitly returns NotFound, and the
user-facing NotFound message enumerates exactly the indices currently present in the
session history; the state is left unchanged. (With an empty history the code never
reaches the NotFound path — see the counterexample.) -/
theorem C2_notfound_enumeration (ct cd : String) (st : AgentState)
    (uc : Option (List ContentPart)) (n : Nat) (g : GenResult) (u : String)
    (hne : st.uploadedImages ≠ [])
    (hn : n ∉ st.uploadedImages.map (fun img => img.index)) :
    resolveImage st uc (some n) =
      ResolveResult.notFound (toString n) (st.uploadedImages.map (fun img => img.index)) ∧
    (transformToHalloweenCharacter ct cd st uc (some n) g u).1 =
      notFoundMsg (toString n) (st.uploadedImages.map (fun img => img.index)) ∧
    (transformToHalloweenCharacter ct cd st uc (some n) g u).2 = st := by
  have hE : st.uploadedImages.isEmpty = false := List.isEmpty_eq_false.mpr hne
  have hfind : st.uploadedImages.find? (fun img => some img.index == some n) = none := by
    rw [List.find?_eq_none]
    intro x hx hpx
    have hxn : x.index = n := by simpa using hpx
    exact hn (hxn ▸ List.mem_map_of_mem _ hx)
  have hres : resolveImage st uc (some n) =
      ResolveResult.notFound (toString n)
        (st.uploadedImages.map (fun img => img.index)) := by
    rw [resolveImage_eq_lookup st uc n hE, hfind]
  refine ⟨hres, ?_, ?_⟩ <;> simp [transformToHalloweenCharacter, hres]

/-- C2 counterexample. In a session with an empty history every index is unassigned,
yet resolving index 1 explicitly returns NoImageAvailable, not NotFound, and the
user-facing message is the NoImageAvailable prompt, not a NotFound message listing
valid indices: the claim fails as stated for empty-history sessions. -/
theorem C2_counterexample :
    emptyState.uploadedImages = [] ∧
    resolveImage emptyState none (some 1) = ResolveResult.noImage ∧
    isNotFoundResult (resolveImage emptyState none (some 1)) = false ∧
    (transformToHalloweenCharacter "witch" "d" emptyState none (some 1)
      (GenResult.success []) "u").1 =
      "❌ No image available. Please upload a photo first!" := by
  decide

/-- C2 witness: index 5 was never assigned in a one-image session; the lookup fails
and the message enumerates exactly the one valid index. -/
theorem C2_witness :
    (oneImageState.uploadedImages ≠ [] ∧
      5 ∉ oneImageState.uploadedImages.map (fun img => img.index)) ∧
    resolveImage oneImageState none (some 5) = ResolveResult.notFound "5" [1] ∧
    (transformToHalloweenCharacter "witch" "d" oneImageState none (some 5)
      (GenResult.success []) "u").1 =
      "❌ Image #5 not found. Available images: #1" := by
  have h := C2_notfound_enumeration "witch" "d" oneImageState none 5 (GenResult.success [])
    "u" (by decide) (by decide)
  refine ⟨⟨by decide, by decide⟩, ?_, ?_⟩
  · rw [h.1]
    decide
  · rw [h.2.1]
    decide

theorem saveMany_indices (reqs : List (Option (List ContentPart) × String)) :
    ∀ (st : AgentState) (k : Nat),
      st.uploadedImages.map (fun img => img.index) = List.range' 1 k →
      (∀ r ∈ reqs, (requestImage r.1).isSome) →
      (saveMany st reqs).uploadedImages.map (fun img => img.index) =
        List.range' 1 (k + reqs.length) := by
  induction reqs with
  | nil =>
    intro st k hk _
    simpa [saveMany] using hk
  | cons r rest ih =>
    intro st k hk hall
    obtain ⟨b, hb⟩ := Option.isSome_iff_exists.mp (hall r (List.mem_cons_self r rest))
    have hshape := save_success_shape st r.1 r.2 b hb
    have hk1 : (saveUploadedImage st r.1 r.2).2.uploadedImages.map (fun img => img.index) =
        List.range' 1 (k + 1) := by
      rw [hshape.1, List.map_append, hk, nextIndex_of_range hk, range1_concat]
      simp
    have hrest := ih (saveUploadedImage st r.1 r.2).2 (k + 1) hk1
      (fun x hx => hall x (List.mem_cons_of_mem r hx))
    have hfold : saveMany st (r :: rest) = saveMany (saveUploadedImage st r.1 r.2).2 rest := rfl
    rw [hfold, hrest]
    congr 1
    simp [List.length_cons]
    omega

/-- C3. Starting from a session with no uploads, a sequence of N successful
`save_uploaded_image` calls (each request carrying an image attachment, with no
intervening clear) assigns the indices 1..N in call order, with no gaps or repeats;
and in general every successful upload appends one record whose index is the maximum
existing index plus one, or 1 when the history is empty. -/
theorem C3_indices_sequential (st : AgentState)
    (reqs : List (Option (List ContentPart) × String))
    (h0 : st.uploadedImages = [])
    (hall : ∀ r ∈ reqs, (requestImage r.1).isSome) :
    (saveMany st reqs).uploadedImages.map (fun img => img.index) =
      List.range' 1 reqs.length ∧
    (∀ (st2 : AgentState) (uc : Option (List ContentPart)) (now : String) (b : Blob),
      requestImage uc = some b →
      ∃ entry : ImageRecord,
        (saveUploadedImage st2 uc now).2.uploadedImages = st2.uploadedImages ++ [entry] ∧
        entry.index =
          (if st2.uploadedImages.isEmpty then 1
           else (st2.uploadedImages.map (fun img => img.index)).foldl max 0 + 1)) := by
  constructor
  · have := saveMany_indices reqs st 0 (by simp [h0]) hall
    simpa using this
  · intro st2 uc now b hb
    have hshape := save_success_shape st2 uc now b hb
    exact ⟨_, hshape.1, rfl⟩

/-- C3 witness: two uploads into a fresh session get indices [1, 2]. -/
theorem C3_witness :
    (emptyState.uploadedImages = [] ∧
      ∀ r ∈ [(jpegRequest, "t1"), (pngRequest, "t2")], (requestImage r.1).isSome) ∧
    (saveMany emptyState [(jpegRequest, "t1"), (pngRequest, "t2")]).uploadedImages.map
      (fun img => img.index) = List.range' 1 2 := by
  have h := C3_indices_sequential emptyState [(jpegRequest, "t1"), (pngRequest, "t2")]
    rfl (by decide)
  exact ⟨⟨rfl, by decide⟩, h.1⟩

theorem find?_append_last_index (l : List ImageRecord) (entry : ImageRecord) (n : Nat)
    (hn : entry.index = n) (hgt : ∀ r ∈ l, r.index < n) :
    (l ++ [entry]).find? (fun img => some img.index == some n) = some entry := by
  rw [List.find?_append]
  have hleft : l.find? (fun img => some img.index == some n) = none := by
    rw [List.find?_eq_none]
    intro x hx hpx
    have hxn : x.index = n := by simpa using hpx
    exact absurd (hgt x hx) (by omega)
  rw [hleft]
  simp [hn]

/-- C4. Immediately after a successful upload of bytes `b`, the current index is the
index of the record just appended (the most recently uploaded image), and resolving
with no explicit index — for any request content — yields exactly the uploaded blob
`b` back from the store. -/
theorem C4_roundtrip (st : AgentState) (uc uc2 : Option (List ContentPart))
    (now : String) (b : Blob) (hb : requestImage uc = some b) :
    (saveUploadedImage st uc now).2.currentImageIndex =
      some (nextIndex st.uploadedImages) ∧
    ((saveUploadedImage st uc now).2.uploadedImages.getLast?).map (fun img => img.index) =
      some (nextIndex st.uploadedImages) ∧
    resolveImage (saveUploadedImage st uc now).2 uc2 none = ResolveResult.resolved b := by
  obtain ⟨himg, hcur, hstore⟩ := save_success_shape st uc now b hb
  refine ⟨hcur, ?_, ?_⟩
  · rw [himg, List.getLast?_concat]
    rfl
  · have hE : (saveUploadedImage st uc now).2.uploadedImages.isEmpty = false := by
      rw [himg]
      simp
    rw [resolveImage]
    simp only [hcur, hE, Bool.false_eq_true, if_false]
    rw [himg, find?_append_last_index st.uploadedImages _ (nextIndex st.uploadedImages) rfl
      (fun r hr => mem_index_lt_nextIndex hr)]
    rw [hstore]
    simp only [loadArtifact_append_self]

/-- C4 witness: uploading a jpeg into a fresh session and resolving with no explicit
index returns the uploaded bytes. -/
theorem C4_witness :
    requestImage jpegRequest = some jpegBlob ∧
    (saveUploadedImage emptyState jpegRequest "t1").2.currentImageIndex = some 1 ∧
    resolveImage (saveUploadedImage emptyState jpegRequest "t1").2 none none =
      ResolveResult.resolved jpegBlob := by
  have h := C4_roundtrip emptyState jpegRequest none "t1" jpegBlob (by decide)
  exact ⟨by decide, by decide, h.2.2⟩

/-- C5. The ledger invariant — `current_image_index`, when set, references an index
present in the history — is preserved by upload, list, availability check, transform
and clear; clear empties the list and unsets the current index together; and a
successful upload sets the current index to the index of the record it just
appended. -/
theorem C5_ledger_invariant (st : AgentState) (uc : Option (List ContentPart))
    (now ct cd u : String) (n : Option Nat) (g : GenResult)
    (hinv : ledgerInv st = true) :
    ledgerInv (saveUploadedImage st uc now).2 = true ∧
    ledgerInv (listUploadedImages st).2 = true ∧
    ledgerInv (checkForSourceImage st uc).2 = true ∧
    ledgerInv (transformToHalloweenCharacter ct cd st uc n g u).2 = true ∧
    ledgerInv (clearImageHistory st).2 = true ∧
    (clearImageHistory st).2.uploadedImages = [] ∧
    (clearImageHistory st).2.currentImageIndex = none ∧
    (∀ b, requestImage uc = some b →
      (saveUploadedImage st uc now).2.currentImageIndex =
        some (nextIndex st.uploadedImages) ∧
      ((saveUploadedImage st uc now).2.uploadedImages.getLast?).map
        (fun img => img.index) = some (nextIndex st.uploadedImages)) := by
  have hclear : (clearImageHistory st).2.uploadedImages = [] ∧
      (clearImageHistory st).2.currentImageIndex = none := by
    cases himg : st.uploadedImages with
    | nil =>
      have hcur : st.currentImageIndex = none := by
        cases hc : st.currentImageIndex with
        | none => rfl
        | some c =>
          rw [ledgerInv, hc, himg] at hinv
          simp at hinv
      simp [clearImageHistory, himg, hcur]
    | cons a t => simp [clearImageHistory, himg]
  have hsave : ledgerInv (saveUploadedImage st uc now).2 = true := by
    cases hb : requestImage uc with
    | none =>
      cases uc with
      | none => simpa [saveUploadedImage] using hinv
      | some parts =>
        cases parts with
        | nil => simpa [saveUploadedImage] using hinv
        | cons p rest =>
          have hb' : firstImageBlob (p :: rest) = none := by
            simpa [requestImage] using hb
          simpa [saveUploadedImage, hb'] using hinv
    | some b =>
      obtain ⟨himg, hcur, _⟩ := save_success_shape st uc now b hb
      rw [ledgerInv, hcur, himg]
      simp
  refine ⟨hsave, ?_, ?_, ?_, ?_, hclear.1, hclear.2, ?_⟩
  · rw [listUploadedImages_state st]
    exact hinv
  · rw [checkForSourceImage_state st uc]
    exact hinv
  · have hf := transform_frame ct cd st uc n g u
    rw [ledgerInv_congr hf.1 hf.2.1]
    exact hinv
  · rw [ledgerInv, hclear.1, hclear.2]
  · intro b hb
    obtain ⟨himg, hcur, _⟩ := save_success_shape st uc now b hb
    refine ⟨hcur, ?_⟩
    rw [himg, List.getLast?_concat]
    rfl

/-- C5 witness: the invariant holds after clearing a one-image session, and clear
unsets the current index together with emptying the list. -/
theorem C5_witness :
    ledgerInv oneImageState = true ∧
    ledgerInv (clearImageHistory oneImageState).2 = true ∧
    (clearImageHistory oneImageState).2.uploadedImages = [] ∧
    (clearImageHistory oneImageState).2.currentImageIndex = none := by
  have h := C5_ledger_invariant oneImageState none "t" "c" "d" "u" none
    (GenResult.success []) (by decide)
  exact ⟨by decide, h.2.2.2.2.1, h.2.2.2.2.2.1, h.2.2.2.2.2.2.1⟩

/-- C6. Clearing a session with images empties the history and unsets the current
index (under the ledger invariant this holds for every session); clearing an
already-empty session is a no-op on the state and returns the success message, and
clear is idempotent on the state. -/
theorem C6_clear_idempotent (st : AgentState) :
    (ledgerInv st = true →
      (clearImageHistory st).2.uploadedImages = [] ∧
      (clearImageHistory st).2.currentImageIndex = none) ∧
    (st.uploadedImages = [] →
      clearImageHistory st =
        ("✅ No images to clear. Ready for you to upload photos!", st)) ∧
    (clearImageHistory (clearImageHistory st).2).2 = (clearImageHistory st).2 ∧
    (st.uploadedImages ≠ [] →
      (clearImageHistory st).1 =
        "✅ Cleared " ++ toString st.uploadedImages.length ++
          " image(s) from history. Ready for fresh uploads!") := by
  refine ⟨?_, ?_, ?_, ?_⟩
  · intro hinv
    cases himg : st.uploadedImages with
    | nil =>
      have hcur : st.currentImageIndex = none := by
        cases hc : st.currentImageIndex with
        | none => rfl
        | some c =>
          rw [ledgerInv, hc, himg] at hinv
          simp at hinv
      simp [clearImageHistory, himg, hcur]
    | cons a t => simp [clearImageHistory, himg]
  · intro himg
    simp [clearImageHistory, himg]
  · cases himg : st.uploadedImages with
    | nil => simp [clearImageHistory, himg]
    | cons a t => simp [clearImageHistory, himg]
  · intro hne
    have hlen : 0 < st.uploadedImages.length := List.length_pos.mpr hne
    simp [clearImageHistory, hlen]

/-- C6 witness: clearing a one-image session empties it and unsets the current
index; clearing the already-cleared session is a state no-op with a success
message. -/
theorem C6_witness :
    ledgerInv oneImageState = true ∧
    (clearImageHistory oneImageState).2.uploadedImages = [] ∧
    (clearImageHistory oneImageState).2.currentImageIndex = none ∧
    (clearImageHistory (clearImageHistory oneImageState).2).2 =
      (clearImageHistory oneImageState).2 ∧
    (clearImageHistory (clearImageHistory oneImageState).2).1 =
      "✅ No images to clear. Ready for you to upload photos!" := by
  have h := C6_clear_idempotent oneImageState
  refine ⟨by decide, (h.1 (by decide)).1, (h.1 (by decide)).2, h.2.2.1, by decide⟩

/-- C7. When the generation collaborator returns a successful response containing no
inline-image part, the orchestrator reports the distinct no-output-produced message
and persists nothing: the state, and in particular the artifact count, is exactly as
before. -/
theorem C7_generation_empty (ct cd : String) (st : AgentState)
    (uc : Option (List ContentPart)) (n : Option Nat) (parts : List ContentPart)
    (u : String) (b : Blob)
    (hres : resolveImage st uc n = ResolveResult.resolved b)
    (hparts : firstInlineBlob parts = none) :
    transformToHalloweenCharacter ct cd st uc n (GenResult.success parts) u =
      ("Image generation completed but no image was returned. This might be due to safety filters.",
        st) ∧
    (transformToHalloweenCharacter ct cd st uc n (GenResult.success parts) u).2.store.length =
      st.store.length := by
  have h : transformToHalloweenCharacter ct cd st uc n (GenResult.success parts) u =
      ("Image generation completed but no image was returned. This might be due to safety filters.",
        st) := by
    unfold transformToHalloweenCharacter
    simp only [hres, hparts]
  exact ⟨h, by rw [h]⟩

/-- C7 witness: a text-only collaborator response on a resolvable session yields the
safety-filter message and an unchanged state. -/
theorem C7_witness :
    (resolveImage oneImageState none none = ResolveResult.resolved jpegBlob ∧
      firstInlineBlob [{ text := some "refused", inlineData := none }] = none) ∧
    transformToHalloweenCharacter "zombie" "d" oneImageState none none
      (GenResult.success [{ text := some "refused", inlineData := none }]) "u" =
      ("Image generation completed but no image was returned. This might be due to safety filters.",
        oneImageState) := by
  have h := C7_generation_empty "zombie" "d" oneImageState none none
    [{ text := some "refused", inlineData := none }] "u" jpegBlob (by decide) rfl
  exact ⟨⟨by decide, rfl⟩, h.1⟩

/-- C8. Every invocation of the transformation orchestrator leaves the session's
history, its current index and all previously stored artifacts unchanged (the
journal only grows at the end), and the number of artifacts grows by exactly one
when resolution succeeded and the collaborator returned an inline-image part, and by
zero on every other (failure) path. -/
theorem C8_transform_frame (ct cd : String) (st : AgentState)
    (uc : Option (List ContentPart)) (n : Option Nat) (g : GenResult) (u : String) :
    (transformToHalloweenCharacter ct cd st uc n g u).2.uploadedImages =
      st.uploadedImages ∧
    (transformToHalloweenCharacter ct cd st uc n g u).2.currentImageIndex =
      st.currentImageIndex ∧
    (∃ tail, (transformToHalloweenCharacter ct cd st uc n g u).2.store =
      st.store ++ tail) ∧
    (transformToHalloweenCharacter ct cd st uc n g u).2.store.length =
      st.store.length + genIncrement (resolveImage st uc n) g := by
  have hf := transform_frame ct cd st uc n g u
  refine ⟨hf.1, hf.2.1, ⟨_, hf.2.2⟩, ?_⟩
  unfold transformToHalloweenCharacter genIncrement
  cases hr : resolveImage st uc n with
  | resolved b =>
    cases g with
    | failure e tb => simp
    | success parts =>
      cases hp : firstInlineBlob parts with
      | some gb => simp [hp, putArtifact]
      | none => simp [hp]
  | notFound ts avail => simp
  | loadFailed ts => simp
  | noImage => simp

/-- C9 (amended). When the generation collaborator call raises, the user-facing
result is the error description followed by the full formatted traceback — the
internal stack detail is exposed to the end user — and the state is unchanged. -/
theorem C9_failure_message (ct cd : String) (st : AgentState)
    (uc : Option (List ContentPart)) (n : Option Nat) (e tb u : String) (b : Blob)
    (hres : resolveImage st uc n = ResolveResult.resolved b) :
    transformToHalloweenCharacter ct cd st uc n (GenResult.failure e tb) u =
      ("Error during transformation: " ++ e ++ "\n\nDetails: " ++ tb, st) := by
  unfold transformToHalloweenCharacter
  simp only [hres]

/-- C9 counterexample. On a concrete collaborator failure the user-facing result is
not only the short error description: the formatted traceback text is appended to
the message verbatim, so internal stack detail is exposed to the end user. -/
theorem C9_counterexample :
    (transformToHalloweenCharacter "vampire" "d" oneImageState none none
      (GenResult.failure "quota exceeded"
        "Traceback (most recent call last): agent.py line 360") "u").1 =
      "Error during transformation: quota exceeded\n\nDetails: Traceback (most recent call last): agent.py line 360" ∧
    (transformToHalloweenCharacter "vampire" "d" oneImageState none none
      (GenResult.failure "quota exceeded"
        "Traceback (most recent call last): agent.py line 360") "u").1 ≠
      "Error during transformation: quota exceeded" := by
  decide

/-- C9 witness: a concrete failing generation yields the description-plus-traceback
message and leaves the state unchanged. -/
theorem C9_witness :
    resolveImage oneImageState none none = ResolveResult.resolved jpegBlob ∧
    transformToHalloweenCharacter "vampire" "d" oneImageState none none
      (GenResult.failure "err" "tb") "u" =
      ("Error during transformation: err\n\nDetails: tb", oneImageState) := by
  have h := C9_failure_message "vampire" "d" oneImageState none none "err" "tb" "u"
    jpegBlob (by decide)
  refine ⟨by decide, ?_⟩
  rw [h]
  decide

/-- C10. A `save_uploaded_image` call whose request carries no image-typed inline
attachment (no content, no parts, or no part with an image mime type) returns one of
the two no-image-found messages and leaves the whole state — history, current index
and artifact journal — exactly unchanged. -/
theorem C10_no_attachment_noop (st : AgentState) (uc : Option (List ContentPart))
    (now : String) (h : requestImage uc = none) :
    (saveUploadedImage st uc now).2 = st ∧
    ((saveUploadedImage st uc now).1 = "❌ No image found. Please upload a photo first!" ∨
      (saveUploadedImage st uc now).1 =
        "❌ No image found in your message. Please attach a photo!") := by
  cases uc with
  | none => exact ⟨rfl, Or.inl rfl⟩
  | some parts =>
    cases parts with
    | nil => exact ⟨rfl, Or.inl rfl⟩
    | cons p rest =>
      have hb : firstImageBlob (p :: rest) = none := by
        simpa [requestImage] using h
      refine ⟨?_, Or.inr ?_⟩ <;> simp [saveUploadedImage, hb]

/-- C10 witness: a text-only request changes nothing and produces the attach-a-photo
message. -/
theorem C10_witness :
    requestImage textRequest = none ∧
    (saveUploadedImage oneImageState textRequest "t9").2 = oneImageState ∧
    (saveUploadedImage oneImageState textRequest "t9").1 =
      "❌ No image found in your message. Please attach a photo!" := by
  have h := C10_no_attachment_noop oneImageState textRequest "t9" (by decide)
  exact ⟨by decide, h.1, by decide⟩

end HalloweenAgent
